import Mathlib

/-!
Shallow embedding of the railway reservation program
(src/railway_reservation.cpp) for verification of its specification.

Modelling conventions:

* C++ `std::vector<bool> seatAvailability` becomes `List Bool`
  (`true` = seat available, index `i` is seat `i+1`).
* Machine integers (`int`) become `Int`; seat counts that come out of
  constructor-validated code become `Nat` where the code guarantees
  positivity (`totalSeats` after `Train::Train` validated `seats > 0`).
* Functions that can throw become `Option`-returning functions: `none`
  models the thrown exception, and the caller's `catch` block is
  translated as the corresponding `match` arm.  A C++ method that throws
  leaves the object unchanged; callers that catch keep the pre-call state.
* `std::unordered_map<std::string, Ticket> bookings` becomes an
  association list `List (String × Ticket)`; `emplace` inserts only when
  the key is absent and reports the insertion outcome as a `Bool`, exactly
  the second component of the pair `std::unordered_map::emplace` returns.
* `generateBookingId` draws random characters and retries until the
  candidate is absent from the ledger; the generated id is modelled as an
  explicit parameter `freshId`, and the generator's guarantees (the id is
  absent from the ledger and starts with "BK", hence is nonempty) become
  hypotheses on that parameter.
* `Ticket::Ticket` stamps the ticket with the current wall-clock time
  (`time(0)` formatted to a string); the formatted current time is
  modelled as an explicit parameter `now`.  The constructor has no
  parameter for a caller-supplied booking time.
-/

/-- `class Train`: id, name, seat count, and the per-seat availability
vector (`true` = available, index `i` = seat `i+1`). -/
structure Train where
  trainId : Int
  trainName : String
  totalSeats : Nat
  seatAvailability : List Bool
  deriving DecidableEq

/-- `Train::Train(id, name, seats)`: validates `id > 0`, nonempty name,
`seats > 0`, then resizes the availability vector to `seats`, all `true`.
`none` models the thrown `InvalidInputException`. -/
def Train.build (id : Int) (name : String) (seats : Int) : Option Train :=
  if id ≤ 0 then none
  else if name = "" then none
  else if seats ≤ 0 then none
  else some ⟨id, name, seats.toNat, List.replicate seats.toNat true⟩

/-- The scan inside `Train::bookNextAvailableSeat`: find the first `true`
entry, flip it to `false`, and return its 1-based position together with
the updated vector. -/
def bookFirst : List Bool → Option (Nat × List Bool)
  | [] => none
  | b :: rest =>
    if b then some (1, false :: rest)
    else
      match bookFirst rest with
      | none => none
      | some (n, rest2) => some (n + 1, b :: rest2)

/-- `Train::bookNextAvailableSeat`: scan seats in ascending order, mark
the first available one taken and return its 1-based number; `none`
models the thrown `NoSeatsAvailableException` (the train is unchanged in
that case, which the caller keeps). -/
def Train.bookNextAvailableSeat (t : Train) : Option (Nat × Train) :=
  match bookFirst t.seatAvailability with
  | none => none
  | some (n, seats2) => some (n, { t with seatAvailability := seats2 })

/-- `Train::bookSpecificSeat`: range check (throw `SeatNotFoundException`,
modelled by `none`), then mark the seat taken and return `true`, or
return `false` without mutation when the seat is already booked. -/
def Train.bookSpecificSeat (t : Train) (seatNumber : Int) : Option (Bool × Train) :=
  if seatNumber < 1 ∨ (t.totalSeats : Int) < seatNumber then none
  else if t.seatAvailability.getD (seatNumber - 1).toNat false then
    some (true, { t with seatAvailability := t.seatAvailability.set (seatNumber - 1).toNat false })
  else some (false, t)

/-- `Train::cancelSeat`: range check (throw `SeatNotFoundException`,
modelled by `none`), then mark the seat available and return `true`, or
return `false` without mutation when the seat was already available. -/
def Train.cancelSeat (t : Train) (seatNumber : Int) : Option (Bool × Train) :=
  if seatNumber < 1 ∨ (t.totalSeats : Int) < seatNumber then none
  else if t.seatAvailability.getD (seatNumber - 1).toNat false then
    some (false, t)
  else some (true, { t with seatAvailability := t.seatAvailability.set (seatNumber - 1).toNat true })

/-- `Train::getAvailableSeatsCount`: `std::count` of `true` entries. -/
def Train.getAvailableSeatsCount (t : Train) : Nat :=
  t.seatAvailability.count true

/-- `class Ticket`: booking id, train id, seat number, passenger name and
the booking-time string. -/
structure Ticket where
  bookingId : String
  trainId : Int
  seatNumber : Int
  passengerName : String
  bookingTime : String
  deriving DecidableEq

/-- `Ticket::Ticket(id, train, seat, passenger)`: validates nonempty id,
positive train id, positive seat number, nonempty passenger name
(`none` models the thrown `InvalidInputException`), then stamps
`bookingTime` with the formatted current time, passed here as `now`.
The constructor takes no booking-time argument. -/
def Ticket.build (id : String) (train : Int) (seat : Int) (passenger : String)
    (now : String) : Option Ticket :=
  if id = "" then none
  else if train ≤ 0 then none
  else if seat ≤ 0 then none
  else if passenger = "" then none
  else some ⟨id, train, seat, passenger, now⟩

/-- The mutable state of `class ReservationSystem`: the train registry
(`std::vector<Train> trains`, order significant) and the ticket ledger
(`std::unordered_map<std::string, Ticket> bookings`, modelled as an
association list). -/
structure ReservationSystem where
  trains : List Train
  bookings : List (String × Ticket)
  deriving DecidableEq

/-- `ReservationSystem::findTrain` / `findTrainRef`: linear scan, first
train whose id matches; `none` models `TrainNotFoundException`. -/
def findTrain (ts : List Train) (id : Int) : Option Train :=
  ts.find? (fun t => t.trainId == id)

/-- Write-back of an in-place mutation made through the reference
returned by `findTrainRef`: replace the first train whose id matches. -/
def replaceFirstTrain : List Train → Int → Train → List Train
  | [], _, _ => []
  | t :: rest, id, t2 =>
    if t.trainId == id then t2 :: rest else t :: replaceFirstTrain rest id t2

/-- `bookings.find(bookingId)` on the ledger (also
`ReservationSystem::findTicket` without the throw). -/
def findMap (m : List (String × Ticket)) (k : String) : Option Ticket :=
  (m.find? (fun p => p.1 == k)).map (fun p => p.2)

/-- `bookings.emplace(k, v)`: inserts only when the key is absent; the
`Bool` is the insertion outcome `std::unordered_map::emplace` reports
(and which both call sites in the source ignore). -/
def emplace (m : List (String × Ticket)) (k : String) (v : Ticket) :
    List (String × Ticket) × Bool :=
  match m.find? (fun p => p.1 == k) with
  | some _ => (m, false)
  | none => (m ++ [(k, v)], true)

/-- `bookings.erase(k)`: remove the entry with key `k`. -/
def eraseKey (m : List (String × Ticket)) (k : String) : List (String × Ticket) :=
  m.filter (fun p => !(p.1 == k))

/-- `ReservationSystem::bookTicket(trainId, passengerName)`.
`freshId` is the id produced by `generateBookingId`, `now` the formatted
current time used by `Ticket::Ticket`.  Returns `some (result, state)`
where `result` is the returned string ("" on every caught failure path);
`none` models an exception escaping `bookTicket` uncaught (only possible
from `cancelSeat` in the rollback arm, which is unreachable for trains
whose availability vector has length `totalSeats`). -/
def bookTicket (s : ReservationSystem) (trainId : Int)
    (passengerName freshId now : String) : Option (String × ReservationSystem) :=
  if passengerName = "" then some ("", s)
  else
    match findTrain s.trains trainId with
    | none => some ("", s)
    | some train =>
      match train.bookNextAvailableSeat with
      | none => some ("", s)
      | some (seatNumber, train2) =>
        match Ticket.build freshId trainId (seatNumber : Int) passengerName now with
        | some ticket =>
          some (freshId,
            { trains := replaceFirstTrain s.trains trainId train2,
              bookings := (emplace s.bookings freshId ticket).1 })
        | none =>
          match train2.cancelSeat (seatNumber : Int) with
          | some (_, train3) =>
            some ("", { s with trains := replaceFirstTrain s.trains trainId train3 })
          | none => none

/-- `ReservationSystem::cancelTicket(bookingId)`: look up the ticket,
look up its train, release the seat; remove the ticket from the ledger
only when the release reported `true`.  All exceptions are caught and
yield `false` with no further effect. -/
def cancelTicket (s : ReservationSystem) (bookingId : String) :
    Bool × ReservationSystem :=
  match findMap s.bookings bookingId with
  | none => (false, s)
  | some ticket =>
    match findTrain s.trains ticket.trainId with
    | none => (false, s)
    | some train =>
      match train.cancelSeat ticket.seatNumber with
      | none => (false, s)
      | some (true, train2) =>
        (true, { trains := replaceFirstTrain s.trains ticket.trainId train2,
                 bookings := eraseKey s.bookings bookingId })
      | some (false, train2) =>
        (false, { s with trains := replaceFirstTrain s.trains ticket.trainId train2 })

/-- `ReservationSystem::checkTicketStatus(bookingId)`: `true` exactly
when the ledger holds the booking id. -/
def checkTicketStatus (s : ReservationSystem) (bookingId : String) : Bool :=
  (findMap s.bookings bookingId).isSome

/-- The reconciliation loop of `loadTrainsFromCSV`:
`for (int i = 0; i < bookedSeats && i < totalSeats; i++)` calling
`bookNextAvailableSeat`, with the `catch` arm emitting a warning and
breaking.  The loop body runs at most
`max 0 (min bookedSeats totalSeats)` times, which the caller passes as
the `Nat` iteration budget; the returned `Bool` records whether the
inconsistent-seat-data warning was emitted. -/
def reconcileLoop : Nat → Train → Train × Bool
  | 0, t => (t, false)
  | n + 1, t =>
    match t.bookNextAvailableSeat with
    | none => (t, true)
    | some (_, t2) => reconcileLoop n t2

/-- Processing of one parsed `trains.csv` row inside `loadTrainsFromCSV`:
construct the train (all seats available), then run the reconciliation
loop for `bookedSeats = totalSeats - availableSeats` iterations, capped
by the loop condition `i < totalSeats`.  `none` models the
`InvalidInputException` from the `Train` constructor, which the per-line
`catch` turns into skipping the row. -/
def loadTrainRow (id : Int) (name : String) (totalSeats availableSeats : Int) :
    Option (Train × Bool) :=
  match Train.build id name totalSeats with
  | none => none
  | some t => some (reconcileLoop (min (totalSeats - availableSeats) totalSeats).toNat t)

/-- A parsed `trains.csv` data row. -/
structure TrainRow where
  trainId : Int
  trainName : String
  totalSeats : Int
  availableSeats : Int
  deriving DecidableEq

/-- The row loop of `loadTrainsFromCSV` after the file opened: the
registry was cleared and each well-parsed row appends its train (rows
whose `Train` constructor throws are skipped). -/
def processTrainRows (rows : List TrainRow) : List Train :=
  rows.foldl
    (fun acc row =>
      match loadTrainRow row.trainId row.trainName row.totalSeats row.availableSeats with
      | none => acc
      | some (t, _) => acc ++ [t])
    []

/-- `ReservationSystem::loadTrainsFromCSV`: `none` for the file stands
for a failed `open`, which throws `FileIOException` before the registry
is cleared, so the caller's `catch` keeps the previous registry. -/
def loadTrainsFromCSV (file : Option (List TrainRow)) : Except Unit (List Train) :=
  match file with
  | none => Except.error ()
  | some rows => Except.ok (processTrainRows rows)

/-- The `try`-block of `ReservationSystem::ReservationSystem`: push the
four hardcoded trains; a constructor throw would abort the remaining
pushes (the `catch` only logs). -/
def pushAll : List (Option Train) → List Train
  | [] => []
  | none :: _ => []
  | some t :: rest => t :: pushAll rest

/-- The registry built by the `ReservationSystem` constructor. -/
def defaultTrains : List Train :=
  pushAll [Train.build 1001 "Express Delhi" 100, Train.build 1002 "Mumbai Local" 100,
           Train.build 1003 "Chennai Mail" 100, Train.build 1004 "Kolkata Express" 100]

/-- The registry after the startup sequence in `main`: construct the
system (default trains), then try `loadTrainsFromCSV("trains.csv")`,
catching `FileIOException` and keeping the default registry. -/
def startupTrains (file : Option (List TrainRow)) : List Train :=
  match loadTrainsFromCSV file with
  | Except.error _ => defaultTrains
  | Except.ok ts => ts

/-- The state of a freshly constructed `ReservationSystem` (default
trains, empty ledger). -/
def initialSystem : ReservationSystem :=
  { trains := defaultTrains, bookings := [] }

/-- A parsed `tickets.csv` data row (`bookingTime` is the rest of the
line after the fourth comma). -/
structure TicketRow where
  bookingId : String
  trainId : Int
  seatNumber : Int
  passengerName : String
  bookingTime : String
  deriving DecidableEq

/-- The accumulator of `loadTicketsFromCSV`: registry, ledger and the
`loadedTickets` / `errorCount` counters. -/
structure LoadTicketsState where
  trains : List Train
  bookings : List (String × Ticket)
  loadedTickets : Nat
  errorCount : Nat
  deriving DecidableEq

/-- Processing of one parsed `tickets.csv` row inside
`loadTicketsFromCSV`: find the train, try to book that exact seat,
construct the ticket (note: the `Ticket` constructor stamps the current
time `now`; the row's `bookingTime` field is parsed by the source but
never used), `emplace` it and count the row as loaded; every caught
failure counts as an error and skips the row. -/
def loadTicketRow (st : LoadTicketsState) (row : TicketRow) (now : String) :
    LoadTicketsState :=
  match findTrain st.trains row.trainId with
  | none => { st with errorCount := st.errorCount + 1 }
  | some train =>
    match train.bookSpecificSeat row.seatNumber with
    | none => { st with errorCount := st.errorCount + 1 }
    | some (false, train2) =>
      { st with trains := replaceFirstTrain st.trains row.trainId train2,
                errorCount := st.errorCount + 1 }
    | some (true, train2) =>
      match Ticket.build row.bookingId row.trainId row.seatNumber row.passengerName now with
      | some ticket =>
        { st with trains := replaceFirstTrain st.trains row.trainId train2,
                  bookings := (emplace st.bookings row.bookingId ticket).1,
                  loadedTickets := st.loadedTickets + 1 }
      | none =>
        match train2.cancelSeat row.seatNumber with
        | some (_, train3) =>
          { st with trains := replaceFirstTrain st.trains row.trainId train3,
                    errorCount := st.errorCount + 1 }
        | none =>
          { st with trains := replaceFirstTrain st.trains row.trainId train2,
                    errorCount := st.errorCount + 1 }

/-- `ReservationSystem::loadTicketsFromCSV` after the file opened: the
ledger is cleared, then each data row is processed in order against the
given registry. -/
def loadTicketsFromCSV (trains : List Train) (rows : List TicketRow) (now : String) :
    LoadTicketsState :=
  rows.foldl (fun st row => loadTicketRow st row now)
    { trains := trains, bookings := [], loadedTickets := 0, errorCount := 0 }

/-- States of the `ReservationSystem` reachable from the freshly
constructed system by `bookTicket` and `cancelTicket` calls.  The `book`
step carries the guarantees of `generateBookingId`: the generated id is
absent from the ledger and nonempty (it starts with "BK"). -/
inductive Reachable : ReservationSystem → Prop
  | init : Reachable initialSystem
  | book {s : ReservationSystem} {trainId : Int} {name freshId now r : String}
      {s2 : ReservationSystem} :
      Reachable s → findMap s.bookings freshId = none → freshId ≠ "" →
      bookTicket s trainId name freshId now = some (r, s2) → Reachable s2
  | cancel {s : ReservationSystem} {bid : String} {b : Bool} {s2 : ReservationSystem} :
      Reachable s → cancelTicket s bid = (b, s2) → Reachable s2

/-- Structural well-formedness of the registry, maintained by the `Train`
constructor: the availability vector has exactly `totalSeats` entries. -/
def WFTrains (ts : List Train) : Prop :=
  ∀ t ∈ ts, t.seatAvailability.length = t.totalSeats

/-- The cross-entity invariant of claim C1: every ticket in the ledger
resolves to a train in the registry, its seat number is in range, and
that seat is marked unavailable. -/
def TicketSeatInv (s : ReservationSystem) : Prop :=
  ∀ p ∈ s.bookings, ∃ t, findTrain s.trains p.2.trainId = some t ∧
    1 ≤ p.2.seatNumber ∧ p.2.seatNumber ≤ (t.totalSeats : Int) ∧
    t.seatAvailability.getD (p.2.seatNumber - 1).toNat false = false

/-- Distinct ledger entries occupy distinct (trainId, seatNumber) pairs. -/
def SeatsInjective (s : ReservationSystem) : Prop :=
  ∀ p ∈ s.bookings, ∀ q ∈ s.bookings, p.1 ≠ q.1 →
    ¬(p.2.trainId = q.2.trainId ∧ p.2.seatNumber = q.2.seatNumber)

/-- The ledger keys are pairwise distinct (unordered_map semantics). -/
def KeysNodup (s : ReservationSystem) : Prop :=
  (s.bookings.map Prod.fst).Nodup

/-- The inductive invariant of the reservation system. -/
def SysInv (s : ReservationSystem) : Prop :=
  WFTrains s.trains ∧ KeysNodup s ∧ SeatsInjective s ∧ TicketSeatInv s

/-! ### List-level helper lemmas -/

theorem getD_set_self (l : List Bool) (i : Nat) (b d : Bool) (h : i < l.length) :
    (l.set i b).getD i d = b := by
  induction l generalizing i with
  | nil => simp at h
  | cons x xs ih =>
    cases i with
    | zero => rfl
    | succ j => simpa using ih j (by simpa using h)

theorem getD_set_ne (l : List Bool) (i j : Nat) (b d : Bool) (hij : i ≠ j) :
    (l.set i b).getD j d = l.getD j d := by
  induction l generalizing i j with
  | nil => rfl
  | cons x xs ih =>
    cases i with
    | zero =>
      cases j with
      | zero => exact absurd rfl hij
      | succ j2 => rfl
    | succ i2 =>
      cases j with
      | zero => rfl
      | succ j2 => simpa using ih i2 j2 (fun h => hij (by rw [h]))

theorem set_set_same (l : List Bool) (i : Nat) (a b : Bool) :
    (l.set i a).set i b = l.set i b := by
  induction l generalizing i with
  | nil => rfl
  | cons x xs ih =>
    cases i with
    | zero => rfl
    | succ j => simp [ih j]

theorem set_getD_self (l : List Bool) (i : Nat) (d : Bool) (h : i < l.length) :
    l.set i (l.getD i d) = l := by
  induction l generalizing i with
  | nil => rfl
  | cons x xs ih =>
    cases i with
    | zero => rfl
    | succ j => simpa using ih j (by simpa using h)

/-! ### bookFirst lemmas -/

theorem bookFirst_eq_none_iff (l : List Bool) :
    bookFirst l = none ↔ l.count true = 0 := by
  induction l with
  | nil => simp [bookFirst]
  | cons b rest ih =>
    cases b with
    | true => simp [bookFirst, List.count_cons]
    | false =>
      simp only [bookFirst, List.count_cons, if_false]
      cases h : bookFirst rest with
      | none => simp [h] at ih; simp [ih]
      | some p => simp [h] at ih ⊢; omega

theorem bookFirst_eq_some (l : List Bool) (n : Nat) (l2 : List Bool)
    (h : bookFirst l = some (n, l2)) :
    ∃ i, n = i + 1 ∧ i < l.length ∧ l.getD i false = true ∧
      (∀ j, j < i → l.getD j false = false) ∧ l2 = l.set i false := by
  induction l generalizing n l2 with
  | nil => simp [bookFirst] at h
  | cons b rest ih =>
    cases b with
    | true =>
      simp only [bookFirst, if_true] at h
      obtain ⟨rfl, rfl⟩ : n = 1 ∧ l2 = false :: rest := by
        constructor <;> cases h <;> rfl
      refine ⟨0, rfl, by simp, rfl, fun j hj => absurd hj (by omega), rfl⟩
    | false =>
      simp only [bookFirst, if_false] at h
      cases hr : bookFirst rest with
      | none => rw [hr] at h; cases h
      | some p =>
        rw [hr] at h
        obtain ⟨m, rest2⟩ := p
        obtain ⟨rfl, rfl⟩ : n = m + 1 ∧ l2 = false :: rest2 := by
          constructor <;> cases h <;> rfl
        obtain ⟨i, rfl, hlt, hget, hmin, rfl⟩ := ih m rest2 hr
        refine ⟨i + 1, rfl, by simpa using hlt, by simpa using hget, ?_, rfl⟩
        intro j hj
        cases j with
        | zero => rfl
        | succ j2 => simpa using hmin j2 (by omega)

/-! ### findTrain / replaceFirstTrain lemmas -/

theorem findTrain_mem (ts : List Train) (id : Int) (t : Train)
    (h : findTrain ts id = some t) : t ∈ ts ∧ t.trainId = id := by
  constructor
  · exact List.mem_of_find?_eq_some h
  · have := List.find?_some h
    simpa using this

theorem findTrain_replaceFirst_same (ts : List Train) (id : Int) (t t2 : Train)
    (h : findTrain ts id = some t) (h2 : t2.trainId = id) :
    findTrain (replaceFirstTrain ts id t2) id = some t2 := by
  induction ts with
  | nil => simp [findTrain] at h
  | cons u rest ih =>
    by_cases hu : u.trainId = id
    · simp [replaceFirstTrain, findTrain, hu, h2]
    · have h2r : findTrain rest id = some t := by
        simpa [findTrain, List.find?_cons, hu] using h
      simpa [replaceFirstTrain, findTrain, hu] using ih h2r

theorem findTrain_replaceFirst_ne (ts : List Train) (id id2 : Int) (t2 : Train)
    (h2 : t2.trainId = id) (hne : id2 ≠ id) :
    findTrain (replaceFirstTrain ts id t2) id2 = findTrain ts id2 := by
  induction ts with
  | nil => rfl
  | cons u rest ih =>
    by_cases hu : u.trainId = id
    · have ht2 : (t2.trainId == id2) = false := by
        simp [h2]; exact fun hc => hne hc.symm
      have hu2 : (u.trainId == id2) = false := by
        simp [hu]; exact fun hc => hne hc.symm
      simp only [replaceFirstTrain, hu, beq_self_eq_true, if_true]
      simp [findTrain, List.find?_cons, ht2, hu2]
    · by_cases hu2 : u.trainId = id2
      · simp [replaceFirstTrain, findTrain, hu, hu2, hne]
      · simpa [replaceFirstTrain, findTrain, hu, hu2] using ih

theorem replaceFirst_self (ts : List Train) (id : Int) (t : Train)
    (h : findTrain ts id = some t) : replaceFirstTrain ts id t = ts := by
  induction ts with
  | nil => rfl
  | cons u rest ih =>
    by_cases hu : u.trainId = id
    · have hut : u = t := by
        have h2 := h
        simp [findTrain, List.find?_cons, hu] at h2
        exact h2
      subst hut
      simp [replaceFirstTrain, hu]
    · have h2r : findTrain rest id = some t := by
        simpa [findTrain, List.find?_cons, hu] using h
      simp [replaceFirstTrain, hu, ih h2r]

theorem replaceFirst_replaceFirst (ts : List Train) (id : Int) (t2 t3 : Train)
    (h2 : t2.trainId = id) :
    replaceFirstTrain (replaceFirstTrain ts id t2) id t3 = replaceFirstTrain ts id t3 := by
  induction ts with
  | nil => rfl
  | cons u rest ih =>
    by_cases hu : u.trainId = id
    · simp [replaceFirstTrain, hu, h2]
    · simp [replaceFirstTrain, hu, ih]

theorem mem_replaceFirst (ts : List Train) (id : Int) (t2 u : Train)
    (h : u ∈ replaceFirstTrain ts id t2) : u ∈ ts ∨ u = t2 := by
  induction ts with
  | nil => simp [replaceFirstTrain] at h
  | cons v rest ih =>
    by_cases hv : v.trainId = id
    · simp only [replaceFirstTrain, hv, beq_self_eq_true, if_true] at h
      rcases List.mem_cons.mp h with h | h
      · right; exact h
      · left; exact List.mem_cons_of_mem _ h
    · have hv2 : (v.trainId == id) = false := by simpa using hv
      simp only [replaceFirstTrain, hv2, Bool.false_eq_true, if_false] at h
      rcases List.mem_cons.mp h with h | h
      · left; simp [h]
      · rcases ih h with h | h
        · left; exact List.mem_cons_of_mem _ h
        · right; exact h

/-! ### Ledger (association list) lemmas -/

theorem findMap_eq_none_find? (m : List (String × Ticket)) (k : String)
    (h : findMap m k = none) : m.find? (fun p => p.1 == k) = none := by
  unfold findMap at h
  exact Option.map_eq_none'.mp h

theorem findMap_eq_none_keys (m : List (String × Ticket)) (k : String)
    (h : findMap m k = none) : ∀ p ∈ m, p.1 ≠ k := by
  intro p hp
  have := List.find?_eq_none.mp (findMap_eq_none_find? m k h) p hp
  simpa using this

theorem emplace_fresh (m : List (String × Ticket)) (k : String) (v : Ticket)
    (h : findMap m k = none) : emplace m k v = (m ++ [(k, v)], true) := by
  unfold emplace
  rw [findMap_eq_none_find? m k h]

theorem emplace_present (m : List (String × Ticket)) (k : String) (v : Ticket)
    (h : findMap m k ≠ none) : emplace m k v = (m, false) := by
  unfold emplace
  cases hf : m.find? (fun p => p.1 == k) with
  | none => exact absurd (by unfold findMap; rw [hf]; rfl) h
  | some p => rfl

theorem findMap_append_self (m : List (String × Ticket)) (k : String) (v : Ticket)
    (h : findMap m k = none) : findMap (m ++ [(k, v)]) k = some v := by
  unfold findMap
  rw [List.find?_append, findMap_eq_none_find? m k h]
  simp

theorem findMap_append_ne (m : List (String × Ticket)) (k k2 : String) (v : Ticket)
    (h : k2 ≠ k) : findMap (m ++ [(k, v)]) k2 = findMap m k2 := by
  unfold findMap
  rw [List.find?_append]
  cases hf : m.find? (fun p => p.1 == k2) with
  | none =>
    have hk : ¬((k == k2) = true) := by simp; exact fun hc => h hc.symm
    simp [hk]
  | some p => rfl

theorem eraseKey_append (m : List (String × Ticket)) (k : String) (v : Ticket)
    (h : findMap m k = none) : eraseKey (m ++ [(k, v)]) k = m := by
  unfold eraseKey
  rw [List.filter_append]
  have h1 : m.filter (fun p => !(p.1 == k)) = m := by
    apply List.filter_eq_self.mpr
    intro p hp
    simpa using findMap_eq_none_keys m k h p hp
  simp [h1]

theorem findMap_mem (m : List (String × Ticket)) (k : String) (v : Ticket)
    (h : findMap m k = some v) :
    ∃ p, m.find? (fun p => p.1 == k) = some p ∧ p ∈ m ∧ p.1 = k ∧ p.2 = v := by
  unfold findMap at h
  cases hf : m.find? (fun p => p.1 == k) with
  | none => rw [hf] at h; cases h
  | some p =>
    rw [hf] at h
    refine ⟨p, rfl, List.mem_of_find?_eq_some hf, ?_, by simpa using h⟩
    have := List.find?_some hf
    simpa using this

theorem mem_eraseKey (m : List (String × Ticket)) (k : String) (q : String × Ticket)
    (h : q ∈ eraseKey m k) : q ∈ m ∧ q.1 ≠ k := by
  unfold eraseKey at h
  have h1 := List.mem_of_mem_filter h
  have h2 := List.of_mem_filter h
  simp at h2
  exact ⟨h1, h2⟩

theorem keys_eraseKey_sublist (m : List (String × Ticket)) (k : String) :
    ((eraseKey m k).map Prod.fst).Sublist (m.map Prod.fst) :=
  (List.filter_sublist m).map Prod.fst

/-! ### Train operation lemmas -/

theorem bookNext_eq_some (t : Train) (n : Nat) (t2 : Train)
    (h : t.bookNextAvailableSeat = some (n, t2)) :
    ∃ i, n = i + 1 ∧ i < t.seatAvailability.length ∧
      t.seatAvailability.getD i false = true ∧
      (∀ j, j < i → t.seatAvailability.getD j false = false) ∧
      t2 = { t with seatAvailability := t.seatAvailability.set i false } := by
  unfold Train.bookNextAvailableSeat at h
  cases hb : bookFirst t.seatAvailability with
  | none => rw [hb] at h; cases h
  | some p =>
    obtain ⟨m, l2⟩ := p
    rw [hb] at h
    simp only [Option.some.injEq, Prod.mk.injEq] at h
    obtain ⟨rfl, rfl⟩ := h
    obtain ⟨i, rfl, hlt, hget, hmin, rfl⟩ := bookFirst_eq_some _ _ _ hb
    exact ⟨i, rfl, hlt, hget, hmin, rfl⟩

theorem bookNext_none_iff (t : Train) :
    t.bookNextAvailableSeat = none ↔ t.getAvailableSeatsCount = 0 := by
  unfold Train.bookNextAvailableSeat Train.getAvailableSeatsCount
  cases hb : bookFirst t.seatAvailability with
  | none => simp [(bookFirst_eq_none_iff _).mp hb]
  | some p =>
    simp only [reduceCtorEq, false_iff]
    intro hc
    have h0 := (bookFirst_eq_none_iff t.seatAvailability).mpr hc
    rw [h0] at hb
    cases hb

theorem bookNext_cancelSeat (t : Train) (n : Nat) (t2 : Train)
    (hlen : t.seatAvailability.length = t.totalSeats)
    (h : t.bookNextAvailableSeat = some (n, t2)) :
    t2.cancelSeat (n : Int) = some (true, t) := by
  obtain ⟨i, rfl, hlt, hget, hmin, rfl⟩ := bookNext_eq_some t n t2 h
  unfold Train.cancelSeat
  have hr : ¬(((i + 1 : Nat) : Int) < 1 ∨
      ((({ t with seatAvailability := t.seatAvailability.set i false } : Train).totalSeats : Nat) : Int)
        < ((i + 1 : Nat) : Int)) := by
    simp only []
    omega
  rw [if_neg hr]
  have hidx : (((i + 1 : Nat) : Int) - 1).toNat = i := by omega
  have hgd : (t.seatAvailability.set i false).getD i false = false :=
    getD_set_self _ _ _ _ hlt
  simp only [hidx, hgd, Bool.false_eq_true, if_false]
  have hrest : (t.seatAvailability.set i false).set i true = t.seatAvailability := by
    rw [set_set_same]
    have : true = t.seatAvailability.getD i false := hget.symm
    rw [this, set_getD_self _ _ _ hlt]
  simp [hrest]

theorem bookSpecificSeat_true (t : Train) (k : Int) (t2 : Train)
    (h : t.bookSpecificSeat k = some (true, t2)) :
    1 ≤ k ∧ k ≤ (t.totalSeats : Int) ∧
      t.seatAvailability.getD (k - 1).toNat false = true ∧
      t2 = { t with seatAvailability := t.seatAvailability.set (k - 1).toNat false } := by
  unfold Train.bookSpecificSeat at h
  by_cases hr : k < 1 ∨ (t.totalSeats : Int) < k
  · rw [if_pos hr] at h; cases h
  · rw [if_neg hr] at h
    push_neg at hr
    by_cases hav : t.seatAvailability.getD (k - 1).toNat false = true
    · rw [if_pos hav] at h
      simp only [Option.some.injEq, Prod.mk.injEq] at h
      exact ⟨hr.1, hr.2, hav, h.2.symm⟩
    · rw [if_neg hav] at h
      simp at h

theorem cancelSeat_true (t : Train) (k : Int) (t2 : Train)
    (h : t.cancelSeat k = some (true, t2)) :
    1 ≤ k ∧ k ≤ (t.totalSeats : Int) ∧
      t.seatAvailability.getD (k - 1).toNat false = false ∧
      t2 = { t with seatAvailability := t.seatAvailability.set (k - 1).toNat true } := by
  unfold Train.cancelSeat at h
  by_cases hr : k < 1 ∨ (t.totalSeats : Int) < k
  · rw [if_pos hr] at h; cases h
  · rw [if_neg hr] at h
    push_neg at hr
    by_cases hav : t.seatAvailability.getD (k - 1).toNat false = true
    · rw [if_pos hav] at h
      simp at h
    · rw [if_neg hav] at h
      simp only [Option.some.injEq, Prod.mk.injEq] at h
      exact ⟨hr.1, hr.2, by simpa using hav, h.2.symm⟩

theorem cancelSeat_false (t : Train) (k : Int) (t2 : Train)
    (h : t.cancelSeat k = some (false, t2)) : t2 = t := by
  unfold Train.cancelSeat at h
  by_cases hr : k < 1 ∨ (t.totalSeats : Int) < k
  · rw [if_pos hr] at h; cases h
  · rw [if_neg hr] at h
    by_cases hav : t.seatAvailability.getD (k - 1).toNat false = true
    · rw [if_pos hav] at h
      simp only [Option.some.injEq, Prod.mk.injEq] at h
      exact h.2.symm
    · rw [if_neg hav] at h
      simp at h

/-! ### Reconciliation loop lemmas -/

theorem bookFirst_replicate_append (m k : Nat) :
    bookFirst (List.replicate m false ++ List.replicate (k + 1) true) =
      some (m + 1, List.replicate (m + 1) false ++ List.replicate k true) := by
  induction m with
  | zero => simp [bookFirst, List.replicate_succ]
  | succ m2 ih =>
    rw [List.replicate_succ, List.cons_append]
    simp only [bookFirst, Bool.false_eq_true, if_false, ih]
    simp [List.replicate_succ]

theorem reconcileLoop_replicate (id : Int) (nm : String) (tot : Nat) :
    ∀ j m k : Nat, j ≤ k →
    reconcileLoop j ⟨id, nm, tot, List.replicate m false ++ List.replicate k true⟩ =
      (⟨id, nm, tot, List.replicate (m + j) false ++ List.replicate (k - j) true⟩, false) := by
  intro j
  induction j with
  | zero => intro m k h; simp [reconcileLoop]
  | succ j2 ih =>
    intro m k h
    obtain ⟨k2, rfl⟩ : ∃ k2, k = k2 + 1 := ⟨k - 1, by omega⟩
    simp only [reconcileLoop, Train.bookNextAvailableSeat, bookFirst_replicate_append]
    rw [ih (m + 1) k2 (by omega)]
    have e1 : m + 1 + j2 = m + (j2 + 1) := by omega
    have e2 : k2 - j2 = k2 + 1 - (j2 + 1) := by omega
    rw [e1, e2]

/-! ### Ticket constructor lemmas -/

theorem ticketBuild_eq_some (id : String) (tr seat : Int) (p now : String) (tk : Ticket)
    (h : Ticket.build id tr seat p now = some tk) :
    tk = ⟨id, tr, seat, p, now⟩ ∧ id ≠ "" ∧ 0 < tr ∧ 0 < seat ∧ p ≠ "" := by
  unfold Ticket.build at h
  by_cases h1 : id = ""
  · rw [if_pos h1] at h; cases h
  · rw [if_neg h1] at h
    by_cases h2 : tr ≤ 0
    · rw [if_pos h2] at h; cases h
    · rw [if_neg h2] at h
      by_cases h3 : seat ≤ 0
      · rw [if_pos h3] at h; cases h
      · rw [if_neg h3] at h
        by_cases h4 : p = ""
        · rw [if_pos h4] at h; cases h
        · rw [if_neg h4] at h
          refine ⟨?_, h1, by omega, by omega, h4⟩
          cases h
          rfl

/-! ### bookTicket case analysis -/

theorem bookTicket_not_none (s : ReservationSystem) (trainId : Int)
    (name freshId now : String) (hWF : WFTrains s.trains) :
    bookTicket s trainId name freshId now ≠ none := by
  intro hc
  unfold bookTicket at hc
  split at hc
  · cases hc
  · split at hc
    · cases hc
    · rename_i train hft
      split at hc
      · cases hc
      · rename_i n train2 hbn
        split at hc
        · cases hc
        · rename_i htk
          split at hc
          · cases hc
          · rename_i hcs
            obtain ⟨hmem, _⟩ := findTrain_mem _ _ _ hft
            rw [bookNext_cancelSeat train n train2 (hWF train hmem) hbn] at hcs
            cases hcs

theorem bookTicket_fail (s : ReservationSystem) (trainId : Int)
    (name freshId now r : String) (s2 : ReservationSystem)
    (hWF : WFTrains s.trains)
    (h : bookTicket s trainId name freshId now = some (r, s2)) (hr : r = "") :
    s2 = s := by
  unfold bookTicket at h
  split at h
  · simp only [Option.some.injEq, Prod.mk.injEq] at h
    exact h.2.symm
  · split at h
    · simp only [Option.some.injEq, Prod.mk.injEq] at h
      exact h.2.symm
    · rename_i train hft
      split at h
      · simp only [Option.some.injEq, Prod.mk.injEq] at h
        exact h.2.symm
      · rename_i n train2 hbn
        split at h
        · rename_i ticket htk
          simp only [Option.some.injEq, Prod.mk.injEq] at h
          exact absurd (h.1.trans hr) (ticketBuild_eq_some _ _ _ _ _ _ htk).2.1
        · rename_i htk
          split at h
          · rename_i b train3 hcs
            obtain ⟨hmem, _⟩ := findTrain_mem _ _ _ hft
            have hrc := bookNext_cancelSeat train n train2 (hWF train hmem) hbn
            rw [hcs] at hrc
            simp only [Option.some.injEq, Prod.mk.injEq] at hrc
            simp only [Option.some.injEq, Prod.mk.injEq] at h
            rw [← h.2, hrc.2, replaceFirst_self _ _ _ hft]
          · cases h

theorem bookTicket_success (s : ReservationSystem) (trainId : Int)
    (name freshId now r : String) (s2 : ReservationSystem)
    (h : bookTicket s trainId name freshId now = some (r, s2)) (hr : r ≠ "")
    (hFresh : findMap s.bookings freshId = none) :
    ∃ train i, findTrain s.trains trainId = some train ∧
      i < train.seatAvailability.length ∧
      train.seatAvailability.getD i false = true ∧
      (∀ j, j < i → train.seatAvailability.getD j false = false) ∧
      name ≠ "" ∧ 0 < trainId ∧ r = freshId ∧
      s2 = { trains := replaceFirstTrain s.trains trainId
               { train with seatAvailability := train.seatAvailability.set i false },
             bookings := s.bookings ++
               [(freshId, ⟨freshId, trainId, ((i + 1 : Nat) : Int), name, now⟩)] } := by
  unfold bookTicket at h
  split at h
  · simp only [Option.some.injEq, Prod.mk.injEq] at h
    exact absurd h.1.symm hr
  · rename_i hname
    split at h
    · simp only [Option.some.injEq, Prod.mk.injEq] at h
      exact absurd h.1.symm hr
    · rename_i train hft
      split at h
      · simp only [Option.some.injEq, Prod.mk.injEq] at h
        exact absurd h.1.symm hr
      · rename_i n train2 hbn
        split at h
        · rename_i ticket htk
          obtain ⟨rfl, _, htr, _, _⟩ := ticketBuild_eq_some _ _ _ _ _ _ htk
          obtain ⟨i, rfl, hlt, hget, hmin, rfl⟩ := bookNext_eq_some _ _ _ hbn
          rw [emplace_fresh _ _ _ hFresh] at h
          simp only [Option.some.injEq, Prod.mk.injEq] at h
          exact ⟨train, i, hft, hlt, hget, hmin, hname, htr, h.1.symm, h.2.symm⟩
        · rename_i htk
          split at h
          · simp only [Option.some.injEq, Prod.mk.injEq] at h
            exact absurd h.1.symm hr
          · cases h

/-! ### Invariant preservation -/

theorem sysInv_init : SysInv initialSystem := by
  refine ⟨?_, ?_, ?_, ?_⟩
  · intro t ht
    have : initialSystem.trains = defaultTrains := rfl
    rw [this] at ht
    fin_cases ht <;> rfl
  · simp [KeysNodup, initialSystem]
  · intro p hp
    simp [initialSystem] at hp
  · intro p hp
    simp [initialSystem] at hp

theorem sysInv_book (s : ReservationSystem) (trainId : Int)
    (name freshId now r : String) (s2 : ReservationSystem) (hInv : SysInv s)
    (hFresh : findMap s.bookings freshId = none) (_hfid : freshId ≠ "")
    (h : bookTicket s trainId name freshId now = some (r, s2)) : SysInv s2 := by
  obtain ⟨hWF, hNd, hInj, hTk⟩ := hInv
  by_cases hr : r = ""
  · rw [bookTicket_fail s trainId name freshId now r s2 hWF h hr]
    exact ⟨hWF, hNd, hInj, hTk⟩
  · obtain ⟨train, i, hft, hlt, hget, hmin, hname, htr, hre, rfl⟩ :=
      bookTicket_success s trainId name freshId now r s2 h hr hFresh
    obtain ⟨hmem, htid⟩ := findTrain_mem _ _ _ hft
    have hlen : train.seatAvailability.length = train.totalSeats := hWF train hmem
    have hkeys := findMap_eq_none_keys _ _ hFresh
    have htid2 : ({ train with
        seatAvailability := train.seatAvailability.set i false } : Train).trainId = trainId := htid
    refine ⟨?_, ?_, ?_, ?_⟩
    · intro t ht
      rcases mem_replaceFirst _ _ _ _ ht with ht | rfl
      · exact hWF t ht
      · simpa using hlen
    · show ((s.bookings ++ [(freshId, _)]).map Prod.fst).Nodup
      rw [List.map_append]
      refine List.Nodup.append hNd (by simp) ?_
      intro a ha hb
      simp only [List.map_cons, List.map_nil, List.mem_singleton] at hb
      obtain ⟨p, hp, rfl⟩ := List.mem_map.mp ha
      exact hkeys p hp hb
    · intro p hp q hq hpq hcon
      obtain ⟨h1, h2⟩ := hcon
      rcases List.mem_append.mp hp with hp | hp <;>
        rcases List.mem_append.mp hq with hq | hq
      · exact hInj p hp q hq hpq ⟨h1, h2⟩
      · simp only [List.mem_singleton] at hq
        subst hq
        obtain ⟨t, hfind, hs1, hs2, htaken⟩ := hTk p hp
        simp only at h1 h2
        rw [h1] at hfind
        rw [hft] at hfind
        obtain rfl := Option.some.inj hfind
        rw [h2] at htaken
        have : ((((i + 1 : Nat) : Int)) - 1).toNat = i := by omega
        rw [this, hget] at htaken
        cases htaken
      · simp only [List.mem_singleton] at hp
        subst hp
        obtain ⟨t, hfind, hs1, hs2, htaken⟩ := hTk q hq
        simp only at h1 h2
        rw [← h1] at hfind
        rw [hft] at hfind
        obtain rfl := Option.some.inj hfind
        rw [← h2] at htaken
        have : ((((i + 1 : Nat) : Int)) - 1).toNat = i := by omega
        rw [this, hget] at htaken
        cases htaken
      · simp only [List.mem_singleton] at hp hq
        subst hp; subst hq
        exact hpq rfl
    · intro p hp
      rcases List.mem_append.mp hp with hp | hp
      · obtain ⟨t, hfind, hs1, hs2, htaken⟩ := hTk p hp
        by_cases hid : p.2.trainId = trainId
        · rw [hid] at hfind
          rw [hft] at hfind
          obtain rfl := Option.some.inj hfind
          refine ⟨{ train with seatAvailability := train.seatAvailability.set i false },
            ?_, hs1, ?_, ?_⟩
          · rw [hid]
            exact findTrain_replaceFirst_same _ _ _ _ hft htid2
          · simpa using hs2
          · simp only
            by_cases hidx : (p.2.seatNumber - 1).toNat = i
            · rw [hidx] at htaken
              rw [hget] at htaken
              cases htaken
            · rw [getD_set_ne _ _ _ _ _ (fun he => hidx he.symm)]
              exact htaken
        · refine ⟨t, ?_, hs1, hs2, htaken⟩
          rw [findTrain_replaceFirst_ne _ _ _ _ htid2 hid]
          exact hfind
      · simp only [List.mem_singleton] at hp
        subst hp
        refine ⟨{ train with seatAvailability := train.seatAvailability.set i false },
          findTrain_replaceFirst_same _ _ _ _ hft htid2, by simp, ?_, ?_⟩
        · simp only
          omega
        · simp only
          have : ((((i + 1 : Nat) : Int)) - 1).toNat = i := by omega
          rw [this]
          exact getD_set_self _ _ _ _ hlt

theorem sysInv_cancel (s : ReservationSystem) (bid : String) (b : Bool)
    (s2 : ReservationSystem) (hInv : SysInv s)
    (h : cancelTicket s bid = (b, s2)) : SysInv s2 := by
  obtain ⟨hWF, hNd, hInj, hTk⟩ := hInv
  unfold cancelTicket at h
  split at h
  · simp only [Prod.mk.injEq] at h
    obtain ⟨rfl, rfl⟩ := h
    exact ⟨hWF, hNd, hInj, hTk⟩
  · rename_i ticket hfm
    split at h
    · simp only [Prod.mk.injEq] at h
      obtain ⟨rfl, rfl⟩ := h
      exact ⟨hWF, hNd, hInj, hTk⟩
    · rename_i train hft
      obtain ⟨hmem, htid⟩ := findTrain_mem _ _ _ hft
      split at h
      · simp only [Prod.mk.injEq] at h
        obtain ⟨rfl, rfl⟩ := h
        exact ⟨hWF, hNd, hInj, hTk⟩
      · rename_i train2 hcs
        simp only [Prod.mk.injEq] at h
        obtain ⟨rfl, rfl⟩ := h
        obtain ⟨hge1, hle, htaken0, rfl⟩ := cancelSeat_true _ _ _ hcs
        obtain ⟨pr, hfindpr, hprmem, hprk, hprv⟩ := findMap_mem _ _ _ hfm
        obtain ⟨_, hfq0, hq1, hq2, _⟩ := hTk pr hprmem
        have htid2 : ({ train with seatAvailability :=
            train.seatAvailability.set (ticket.seatNumber - 1).toNat true } : Train).trainId
              = ticket.trainId := htid
        refine ⟨?_, ?_, ?_, ?_⟩
        · intro t ht
          rcases mem_replaceFirst _ _ _ _ ht with ht | rfl
          · exact hWF t ht
          · simpa using hWF train hmem
        · exact List.Nodup.sublist (keys_eraseKey_sublist _ _) hNd
        · intro p hp q hq hpq hcon
          obtain ⟨hp2, _⟩ := mem_eraseKey _ _ _ hp
          obtain ⟨hq2, _⟩ := mem_eraseKey _ _ _ hq
          exact hInj p hp2 q hq2 hpq hcon
        · intro q hq
          obtain ⟨hq2, hqk⟩ := mem_eraseKey _ _ _ hq
          obtain ⟨t, hfq, hb1, hb2, htaken⟩ := hTk q hq2
          by_cases hid : q.2.trainId = ticket.trainId
          · rw [hid] at hfq
            rw [hft] at hfq
            obtain rfl := Option.some.inj hfq
            refine ⟨{ train with seatAvailability :=
                train.seatAvailability.set (ticket.seatNumber - 1).toNat true }, ?_, hb1, ?_, ?_⟩
            · rw [hid]
              exact findTrain_replaceFirst_same _ _ _ _ hft htid2
            · simpa using hb2
            · simp only
              have hseat : q.2.seatNumber ≠ ticket.seatNumber := by
                intro he
                refine hInj q hq2 pr hprmem (by rw [hprk]; exact hqk) ⟨?_, ?_⟩
                · rw [hid, hprv]
                · rw [he, hprv]
              have hq1t : 1 ≤ ticket.seatNumber := by
                rw [hprv] at hq1
                exact hq1
              have hidx : (ticket.seatNumber - 1).toNat ≠ (q.2.seatNumber - 1).toNat := by
                intro he
                apply hseat
                omega
              rw [getD_set_ne _ _ _ _ _ hidx]
              exact htaken
          · refine ⟨t, ?_, hb1, hb2, htaken⟩
            rw [findTrain_replaceFirst_ne _ _ _ _ htid2 hid]
            exact hfq
      · rename_i train2 hcs
        simp only [Prod.mk.injEq] at h
        obtain ⟨rfl, rfl⟩ := h
        obtain rfl := cancelSeat_false _ _ _ hcs
        rw [replaceFirst_self _ _ _ hft]
        exact ⟨hWF, hNd, hInj, hTk⟩

theorem reachable_sysInv (s : ReservationSystem) (h : Reachable s) : SysInv s := by
  induction h with
  | init => exact sysInv_init
  | book _ hFresh hfid hstep ih => exact sysInv_book _ _ _ _ _ _ _ ih hFresh hfid hstep
  | cancel _ hstep ih => exact sysInv_cancel _ _ _ _ ih hstep

theorem cancelSeat_of_set (t : Train) (i : Nat)
    (hlt : i < t.seatAvailability.length)
    (hlen : t.seatAvailability.length = t.totalSeats)
    (hget : t.seatAvailability.getD i false = true) :
    ({ t with seatAvailability := t.seatAvailability.set i false } : Train).cancelSeat
      ((i + 1 : Nat) : Int) = some (true, t) := by
  unfold Train.cancelSeat
  have hr : ¬(((i + 1 : Nat) : Int) < 1 ∨
      ((({ t with seatAvailability := t.seatAvailability.set i false } : Train).totalSeats : Nat) : Int)
        < ((i + 1 : Nat) : Int)) := by
    simp only []
    omega
  rw [if_neg hr]
  have hidx : (((i + 1 : Nat) : Int) - 1).toNat = i := by omega
  have hgd : (t.seatAvailability.set i false).getD i false = false :=
    getD_set_self _ _ _ _ hlt
  simp only [hidx, hgd, Bool.false_eq_true, if_false]
  have hrest : (t.seatAvailability.set i false).set i true = t.seatAvailability := by
    rw [set_set_same]
    have h2 : true = t.seatAvailability.getD i false := hget.symm
    rw [h2, set_getD_self _ _ _ hlt]
  simp [hrest]

/-! ### Claim theorems -/

/-- Claim C1: in every state reachable from the freshly constructed
system by bookTicket and cancelTicket operations, every ticket in the
ledger has its (trainId, seatNumber) seat marked unavailable in the
train of that trainId in the registry. -/
theorem c1_ticket_implies_seat_taken (s : ReservationSystem) (h : Reachable s) :
    TicketSeatInv s :=
  (reachable_sysInv s h).2.2.2

/-- Witness for C1: the invariant instantiated at the concrete state
reached by booking one ticket on train 1001 from the initial system. -/
theorem c1_ticket_implies_seat_taken_witness :
    TicketSeatInv
      { trains := [⟨1001, "Express Delhi", 100, false :: List.replicate 99 true⟩,
                   ⟨1002, "Mumbai Local", 100, List.replicate 100 true⟩,
                   ⟨1003, "Chennai Mail", 100, List.replicate 100 true⟩,
                   ⟨1004, "Kolkata Express", 100, List.replicate 100 true⟩],
        bookings := [("BK00000001", ⟨"BK00000001", 1001, 1, "Alice", "now"⟩)] } := by
  have hstep : bookTicket initialSystem 1001 "Alice" "BK00000001" "now" =
      some ("BK00000001",
        { trains := [⟨1001, "Express Delhi", 100, false :: List.replicate 99 true⟩,
                     ⟨1002, "Mumbai Local", 100, List.replicate 100 true⟩,
                     ⟨1003, "Chennai Mail", 100, List.replicate 100 true⟩,
                     ⟨1004, "Kolkata Express", 100, List.replicate 100 true⟩],
          bookings := [("BK00000001", ⟨"BK00000001", 1001, 1, "Alice", "now"⟩)] }) := by
    decide
  exact c1_ticket_implies_seat_taken _
    (Reachable.book Reachable.init rfl (by decide) hstep)

/-- Claim C4: bookNextAvailableSeat returns the lowest 1-based available
seat number and marks exactly that seat taken, leaving all other seats
unchanged; it fails (NoSeatsAvailable) if and only if no seat is
available, in which case no seat changes. -/
theorem c4_bookNextAvailableSeat_spec (t : Train) :
    (t.bookNextAvailableSeat = none ↔ t.getAvailableSeatsCount = 0) ∧
    (∀ n t2, t.bookNextAvailableSeat = some (n, t2) →
      1 ≤ n ∧ n ≤ t.seatAvailability.length ∧
      t.seatAvailability.getD (n - 1) false = true ∧
      (∀ j, j < n - 1 → t.seatAvailability.getD j false = false) ∧
      t2 = { t with seatAvailability := t.seatAvailability.set (n - 1) false }) := by
  refine ⟨bookNext_none_iff t, ?_⟩
  intro n t2 h
  obtain ⟨i, rfl, hlt, hget, hmin, rfl⟩ := bookNext_eq_some _ _ _ h
  simp only [Nat.add_sub_cancel]
  exact ⟨by omega, by omega, hget, hmin, trivial⟩

/-- Witness for C4: on a train whose seat 1 is taken and seats 2, 3 are
available, the next booked seat is seat 2. -/
theorem c4_bookNextAvailableSeat_witness :
    1 ≤ 2 ∧ 2 ≤ ([false, true, true] : List Bool).length ∧
    ([false, true, true] : List Bool).getD (2 - 1) false = true ∧
    (∀ j, j < 2 - 1 → ([false, true, true] : List Bool).getD j false = false) ∧
    (⟨5, "T", 3, [false, false, true]⟩ : Train) =
      { (⟨5, "T", 3, [false, true, true]⟩ : Train) with
        seatAvailability := ([false, true, true] : List Bool).set (2 - 1) false } :=
  (c4_bookNextAvailableSeat_spec ⟨5, "T", 3, [false, true, true]⟩).2 2
    ⟨5, "T", 3, [false, false, true]⟩ (by decide)

/-- Claim C5 (code behavior at the failing input): loading a well-formed
tickets.csv row whose train exists and whose seat is available inserts a
ticket whose bookingTime is the current wall-clock string stamped by the
Ticket constructor, not the bookingTime string read from the row: the
parsed bookingTime field is discarded by the source. -/
theorem c5_bookingTime_not_preserved :
    (loadTicketsFromCSV [⟨1001, "Express Delhi", 2, [true, true]⟩]
        [⟨"BK00000001", 1001, 1, "Alice", "01/02/2020 03:04:05"⟩]
        "06/07/2026 08:09:10").bookings =
      [("BK00000001", ⟨"BK00000001", 1001, 1, "Alice", "06/07/2026 08:09:10"⟩)] ∧
    ("06/07/2026 08:09:10" : String) ≠ "01/02/2020 03:04:05" :=
  ⟨by decide, by decide⟩

/-- Claim C7: emplacing a ticket under a booking id already present in
the ledger leaves the ledger unchanged and reports failure. -/
theorem c7_emplace_duplicate_fails (m : List (String × Ticket)) (k : String)
    (v tk : Ticket) (h : findMap m k = some tk) :
    emplace m k v = (m, false) :=
  emplace_present m k v (by rw [h]; exact fun hc => Option.noConfusion hc)

/-- Witness for C7: emplacing under the already-present key BK1 fails. -/
theorem c7_emplace_duplicate_fails_witness :
    emplace [("BK1", ⟨"BK1", 1, 1, "A", "t"⟩)] "BK1" ⟨"BK1", 2, 2, "B", "u"⟩ =
      ([("BK1", ⟨"BK1", 1, 1, "A", "t"⟩)], false) :=
  c7_emplace_duplicate_fails _ "BK1" _ ⟨"BK1", 1, 1, "A", "t"⟩ (by decide)

/-- Claim C8: when opening trains.csv fails at startup, the load raises
FileIO before clearing the registry, and the registry stays exactly the
four hardcoded default trains, 100 seats each, all available. -/
theorem c8_missing_trains_csv_keeps_defaults :
    loadTrainsFromCSV none = Except.error () ∧
    startupTrains none =
      [⟨1001, "Express Delhi", 100, List.replicate 100 true⟩,
       ⟨1002, "Mumbai Local", 100, List.replicate 100 true⟩,
       ⟨1003, "Chennai Mail", 100, List.replicate 100 true⟩,
       ⟨1004, "Kolkata Express", 100, List.replicate 100 true⟩] :=
  ⟨rfl, by decide⟩

/-- Claim C9: a well-formed trains.csv row whose declared availableSeats
exceeds totalSeats yields the train with all seats available, zero
allocations and no warning. -/
theorem c9_excess_available_no_warning (id : Int) (name : String)
    (totalSeats availableSeats : Int)
    (hid : 0 < id) (hname : name ≠ "") (htot : 0 < totalSeats)
    (hgt : totalSeats < availableSeats) :
    loadTrainRow id name totalSeats availableSeats =
      some (⟨id, name, totalSeats.toNat, List.replicate totalSeats.toNat true⟩, false) := by
  have hb : Train.build id name totalSeats =
      some ⟨id, name, totalSeats.toNat, List.replicate totalSeats.toNat true⟩ := by
    unfold Train.build
    rw [if_neg (by omega), if_neg hname, if_neg (by omega)]
  simp only [loadTrainRow, hb]
  have h0 : (min (totalSeats - availableSeats) totalSeats).toNat = 0 := by omega
  rw [h0]
  rfl

/-- Witness for C9: row (1, T, 3, 5) yields three available seats and no
warning. -/
theorem c9_excess_available_no_warning_witness :
    loadTrainRow 1 "T" 3 5 = some (⟨1, "T", 3, [true, true, true]⟩, false) := by
  have h := c9_excess_available_no_warning 1 "T" 3 5 (by decide) (by decide)
    (by decide) (by decide)
  rw [h]
  decide

/-- Claim C6 counterexample: for the well-formed row (1, T, 2, -1) the
booked-seat count 2 - (-1) = 3 exceeds totalSeats = 2, allocation stops
after filling both seats, and the warning flag is false — the claimed
inconsistent-seat-data warning is not emitted. -/
theorem c6_counterexample :
    (2 : Int) - (-1) > 2 ∧
    loadTrainRow 1 "T" 2 (-1) = some (⟨1, "T", 2, [false, false]⟩, false) ∧
    (loadTrainRow 1 "T" 2 (-1)).map Prod.snd ≠ some true :=
  ⟨by decide, by decide, by decide⟩

/-- Claim C6 (amended): a well-formed trains.csv row constructs the
train with all totalSeats seats available and then allocates the first
available seat exactly max 0 (min (totalSeats - availableSeats)
totalSeats) times, in ascending seat order; when totalSeats -
availableSeats exceeds totalSeats the allocation stops early after
filling every seat, and no warning is emitted (the inconsistency warning
in the source is unreachable because the loop bound already caps the
iteration count at totalSeats). -/
theorem c6_loadTrainRow_reconcile (id : Int) (name : String)
    (totalSeats availableSeats : Int)
    (hid : 0 < id) (hname : name ≠ "") (htot : 0 < totalSeats) :
    loadTrainRow id name totalSeats availableSeats =
      some (⟨id, name, totalSeats.toNat,
        List.replicate (min (totalSeats - availableSeats) totalSeats).toNat false ++
          List.replicate
            (totalSeats.toNat - (min (totalSeats - availableSeats) totalSeats).toNat)
            true⟩,
        false) := by
  have hb : Train.build id name totalSeats =
      some ⟨id, name, totalSeats.toNat, List.replicate totalSeats.toNat true⟩ := by
    unfold Train.build
    rw [if_neg (by omega), if_neg hname, if_neg (by omega)]
  simp only [loadTrainRow, hb]
  have hk : (min (totalSeats - availableSeats) totalSeats).toNat ≤ totalSeats.toNat := by
    omega
  have hrec := reconcileLoop_replicate id name totalSeats.toNat
    (min (totalSeats - availableSeats) totalSeats).toNat 0 totalSeats.toNat hk
  simp only [List.replicate_zero, List.nil_append, Nat.zero_add] at hrec
  rw [hrec]

/-- Witness for C6 (amended): row (1, T, 3, 1) allocates exactly two
seats in ascending order with no warning. -/
theorem c6_loadTrainRow_reconcile_witness :
    loadTrainRow 1 "T" 3 1 = some (⟨1, "T", 3, [false, false, true]⟩, false) := by
  have h := c6_loadTrainRow_reconcile 1 "T" 3 1 (by decide) (by decide) (by decide)
  rw [h]
  decide

/-- Claim C2: for every well-formed train registry (availability vectors
of constructor length) and every ticket ledger, trainId and
passengerName, with freshId the generator's output (absent from the
ledger), bookTicket returns without an escaping exception; on success
(non-empty result) exactly one previously available seat of the located
train is set taken and exactly one ticket is appended to the ledger; on
every failure path it returns the empty string and the state is exactly
the pre-call state. -/
theorem c2_bookTicket_success_or_rollback (s : ReservationSystem) (trainId : Int)
    (name freshId now : String)
    (hWF : WFTrains s.trains)
    (hFresh : findMap s.bookings freshId = none) :
    ∃ r s2, bookTicket s trainId name freshId now = some (r, s2) ∧
      (r ≠ "" → r = freshId ∧
        ∃ train i, findTrain s.trains trainId = some train ∧
          i < train.seatAvailability.length ∧
          train.seatAvailability.getD i false = true ∧
          s2.trains = replaceFirstTrain s.trains trainId
            { train with seatAvailability := train.seatAvailability.set i false } ∧
          s2.bookings = s.bookings ++
            [(freshId, ⟨freshId, trainId, ((i + 1 : Nat) : Int), name, now⟩)]) ∧
      (r = "" → s2 = s) := by
  cases hb : bookTicket s trainId name freshId now with
  | none => exact absurd hb (bookTicket_not_none _ _ _ _ _ hWF)
  | some out =>
    obtain ⟨r, s2⟩ := out
    refine ⟨r, s2, rfl, ?_, ?_⟩
    · intro hr
      obtain ⟨train, i, hft, hlt, hget, hmin, hname, htr, hre, hs2⟩ :=
        bookTicket_success _ _ _ _ _ _ _ hb hr hFresh
      exact ⟨hre, train, i, hft, hlt, hget, by rw [hs2], by rw [hs2]⟩
    · intro hr
      exact bookTicket_fail _ _ _ _ _ _ _ hWF hb hr

/-- Witness for C2: booking on a two-seat train with one ledger entry
absent succeeds and takes seat 1. -/
theorem c2_bookTicket_success_or_rollback_witness :
    ∃ r s2, bookTicket { trains := [⟨7, "T", 2, [true, true]⟩], bookings := [] }
        7 "Alice" "BK1" "n" = some (r, s2) ∧
      (r ≠ "" → r = "BK1" ∧
        ∃ train i,
          findTrain [⟨7, "T", 2, [true, true]⟩] 7 = some train ∧
          i < train.seatAvailability.length ∧
          train.seatAvailability.getD i false = true ∧
          s2.trains = replaceFirstTrain [⟨7, "T", 2, [true, true]⟩] 7
            { train with seatAvailability := train.seatAvailability.set i false } ∧
          s2.bookings = [] ++
            [("BK1", ⟨"BK1", 7, ((i + 1 : Nat) : Int), "Alice", "n"⟩)]) ∧
      (r = "" → s2 = { trains := [⟨7, "T", 2, [true, true]⟩], bookings := [] }) :=
  c2_bookTicket_success_or_rollback
    { trains := [⟨7, "T", 2, [true, true]⟩], bookings := [] } 7 "Alice" "BK1" "n"
    (by intro t ht; fin_cases ht; rfl) rfl

/-- Claim C3: after a successful bookTicket on a well-formed registry,
cancelTicket on the returned bookingId succeeds and restores the exact
pre-booking state — in particular the train's availableCount — and a
subsequent ticket-status lookup of that bookingId fails. -/
theorem c3_book_cancel_roundtrip (s : ReservationSystem) (trainId : Int)
    (name freshId now r : String) (s1 : ReservationSystem)
    (hWF : WFTrains s.trains)
    (hFresh : findMap s.bookings freshId = none)
    (hbook : bookTicket s trainId name freshId now = some (r, s1)) (hr : r ≠ "") :
    cancelTicket s1 r = (true, s) ∧
    checkTicketStatus (cancelTicket s1 r).2 r = false ∧
    ∃ t1, findTrain s.trains trainId = some t1 ∧
      ∃ t2, findTrain (cancelTicket s1 r).2.trains trainId = some t2 ∧
        t2.getAvailableSeatsCount = t1.getAvailableSeatsCount := by
  obtain ⟨train, i, hft, hlt, hget, hmin, hname, htr, rfl, rfl⟩ :=
    bookTicket_success _ _ _ _ _ _ _ hbook hr hFresh
  obtain ⟨hmem, htid⟩ := findTrain_mem _ _ _ hft
  have hlen : train.seatAvailability.length = train.totalSeats := hWF train hmem
  have htid2 : ({ train with
      seatAvailability := train.seatAvailability.set i false } : Train).trainId = trainId := htid
  have hfm1 : findMap (s.bookings ++
      [(r, ⟨r, trainId, ((i + 1 : Nat) : Int), name, now⟩)]) r =
      some ⟨r, trainId, ((i + 1 : Nat) : Int), name, now⟩ :=
    findMap_append_self _ _ _ hFresh
  have hft1 : findTrain (replaceFirstTrain s.trains trainId
      { train with seatAvailability := train.seatAvailability.set i false }) trainId =
      some { train with seatAvailability := train.seatAvailability.set i false } :=
    findTrain_replaceFirst_same _ _ _ _ hft htid2
  have hcs1 : ({ train with seatAvailability :=
      train.seatAvailability.set i false } : Train).cancelSeat ((i + 1 : Nat) : Int) =
      some (true, train) :=
    cancelSeat_of_set train i hlt hlen hget
  have hcancel : cancelTicket
      { trains := replaceFirstTrain s.trains trainId
          { train with seatAvailability := train.seatAvailability.set i false },
        bookings := s.bookings ++
          [(r, ⟨r, trainId, ((i + 1 : Nat) : Int), name, now⟩)] } r =
      (true, s) := by
    simp only [cancelTicket, hfm1, hft1, hcs1]
    rw [replaceFirst_replaceFirst _ _ _ _ htid2, replaceFirst_self _ _ _ hft,
      eraseKey_append _ _ _ hFresh]
  refine ⟨hcancel, ?_, ?_⟩
  · rw [hcancel]
    simp [checkTicketStatus, hFresh]
  · refine ⟨train, hft, train, ?_, rfl⟩
    rw [hcancel]
    exact hft

/-- Witness for C3: book then cancel on a two-seat train restores the
initial state and the booking id no longer resolves. -/
theorem c3_book_cancel_roundtrip_witness :
    cancelTicket
        (⟨[⟨7, "T", 2, [false, true]⟩],
          [("BK1", ⟨"BK1", 7, 1, "Alice", "n"⟩)]⟩ : ReservationSystem) "BK1" =
      (true, (⟨[⟨7, "T", 2, [true, true]⟩], []⟩ : ReservationSystem)) ∧
    checkTicketStatus (cancelTicket
        (⟨[⟨7, "T", 2, [false, true]⟩],
          [("BK1", ⟨"BK1", 7, 1, "Alice", "n"⟩)]⟩ : ReservationSystem) "BK1").2 "BK1" = false ∧
    ∃ t1, findTrain [⟨7, "T", 2, [true, true]⟩] 7 = some t1 ∧
      ∃ t2, findTrain (cancelTicket
          (⟨[⟨7, "T", 2, [false, true]⟩],
            [("BK1", ⟨"BK1", 7, 1, "Alice", "n"⟩)]⟩ : ReservationSystem) "BK1").2.trains 7
          = some t2 ∧
        t2.getAvailableSeatsCount = t1.getAvailableSeatsCount :=
  c3_book_cancel_roundtrip ⟨[⟨7, "T", 2, [true, true]⟩], []⟩
    7 "Alice" "BK1" "n" "BK1"
    ⟨[⟨7, "T", 2, [false, true]⟩], [("BK1", ⟨"BK1", 7, 1, "Alice", "n"⟩)]⟩
    (by intro t ht; fin_cases ht; rfl) rfl (by decide) (by decide)

/-- Claim C10: when tickets.csv consists of two well-formed rows with
the same bookingId, each referencing an existing train and a distinct
available in-range seat, loading marks both seats unavailable in the
registry, the ledger afterwards contains only the ticket built from the
first row, and both rows are counted as successfully loaded (and none as
errors) — leaving the second seat taken with no ticket referencing it. -/
theorem c10_duplicate_bookingId_rows (trains : List Train) (r1 r2 : TicketRow)
    (now : String) (tr1 tr1' tr2 tr2' : Train) (tk1 tk2 : Ticket)
    (hbid : r2.bookingId = r1.bookingId)
    (h1t : findTrain trains r1.trainId = some tr1)
    (h1b : tr1.bookSpecificSeat r1.seatNumber = some (true, tr1'))
    (h1k : Ticket.build r1.bookingId r1.trainId r1.seatNumber r1.passengerName now = some tk1)
    (h2t : findTrain (replaceFirstTrain trains r1.trainId tr1') r2.trainId = some tr2)
    (h2b : tr2.bookSpecificSeat r2.seatNumber = some (true, tr2'))
    (h2k : Ticket.build r2.bookingId r2.trainId r2.seatNumber r2.passengerName now = some tk2) :
    loadTicketsFromCSV trains [r1, r2] now =
      { trains := replaceFirstTrain (replaceFirstTrain trains r1.trainId tr1')
          r2.trainId tr2',
        bookings := [(r1.bookingId, tk1)],
        loadedTickets := 2, errorCount := 0 } ∧
    tr1' = { tr1 with seatAvailability :=
      tr1.seatAvailability.set (r1.seatNumber - 1).toNat false } ∧
    tr2' = { tr2 with seatAvailability :=
      tr2.seatAvailability.set (r2.seatNumber - 1).toNat false } := by
  have e1 : loadTicketRow ⟨trains, [], 0, 0⟩ r1 now =
      ⟨replaceFirstTrain trains r1.trainId tr1', [(r1.bookingId, tk1)], 1, 0⟩ := by
    simp only [loadTicketRow, h1t, h1b, h1k]
    rw [emplace_fresh [] r1.bookingId tk1 rfl]
    rfl
  have hfm2 : findMap [(r1.bookingId, tk1)] r2.bookingId = some tk1 := by
    rw [hbid]
    simp [findMap]
  have e2 : loadTicketRow
      ⟨replaceFirstTrain trains r1.trainId tr1', [(r1.bookingId, tk1)], 1, 0⟩ r2 now =
      ⟨replaceFirstTrain (replaceFirstTrain trains r1.trainId tr1') r2.trainId tr2',
        [(r1.bookingId, tk1)], 2, 0⟩ := by
    simp only [loadTicketRow, h2t, h2b, h2k]
    rw [emplace_present _ _ _ (by rw [hfm2]; exact fun hc => Option.noConfusion hc)]
  refine ⟨?_, (bookSpecificSeat_true _ _ _ h1b).2.2.2, (bookSpecificSeat_true _ _ _ h2b).2.2.2⟩
  show List.foldl (fun st row => loadTicketRow st row now) ⟨trains, [], 0, 0⟩ [r1, r2] = _
  rw [List.foldl_cons, e1, List.foldl_cons, e2, List.foldl_nil]

/-- Witness for C10: two rows sharing booking id BKX on a two-seat train
take both seats but leave only the first ticket in the ledger, with both
rows counted as loaded. -/
theorem c10_duplicate_bookingId_rows_witness :
    loadTicketsFromCSV [⟨1, "T", 2, [true, true]⟩]
        [⟨"BKX", 1, 1, "A", "t1"⟩, ⟨"BKX", 1, 2, "B", "t2"⟩] "n" =
      { trains := replaceFirstTrain (replaceFirstTrain [⟨1, "T", 2, [true, true]⟩] 1
          ⟨1, "T", 2, [false, true]⟩) 1 ⟨1, "T", 2, [false, false]⟩,
        bookings := [("BKX", ⟨"BKX", 1, 1, "A", "n"⟩)],
        loadedTickets := 2, errorCount := 0 } ∧
    (⟨1, "T", 2, [false, true]⟩ : Train) = { (⟨1, "T", 2, [true, true]⟩ : Train) with
      seatAvailability := ([true, true] : List Bool).set ((1 : Int) - 1).toNat false } ∧
    (⟨1, "T", 2, [false, false]⟩ : Train) = { (⟨1, "T", 2, [false, true]⟩ : Train) with
      seatAvailability := ([false, true] : List Bool).set ((2 : Int) - 1).toNat false } :=
  c10_duplicate_bookingId_rows [⟨1, "T", 2, [true, true]⟩]
    ⟨"BKX", 1, 1, "A", "t1"⟩ ⟨"BKX", 1, 2, "B", "t2"⟩ "n"
    ⟨1, "T", 2, [true, true]⟩ ⟨1, "T", 2, [false, true]⟩
    ⟨1, "T", 2, [false, true]⟩ ⟨1, "T", 2, [false, false]⟩
    ⟨"BKX", 1, 1, "A", "n"⟩ ⟨"BKX", 1, 2, "B", "n"⟩
    rfl (by decide) (by decide) (by decide) (by decide) (by decide) (by decide)
